import Mathlib

/-- Formal model of the blerpc container framing layer, command envelope,
server dispatcher and client capability handling. Definitions are translated
from the C sources under src (peripheral_fw/src/ble_service.c,
peripheral_fw/src/handlers.c, central_fw/src/ble_central.c). The protocol
library itself (container.c, command.c, crypto.c) is not part of the source
tree; the definitions taken from it are modelled from the specification
(spec.md sections 3, 4.1 to 4.4) and pinned by the tests that are in the tree
(peripheral/tests/src/test_container.c, peripheral_fw/tests/src/test_command.c);
each such definition carries a comment that starts with Modelled from the spec.
Bytes are modelled as Nat values below 256, machine integers as Nat with
explicit reductions mod 256 and mod 65536 where the C code truncates. -/
def BLERPC_MODEL_OVERVIEW : Unit := ()

/-- FIRST container header size in bytes (spec section 3). -/
def CONTAINER_FIRST_HEADER_SIZE : Nat := 6

/-- SUBSEQUENT container header size in bytes (spec section 3). -/
def CONTAINER_SUBSEQUENT_HEADER_SIZE : Nat := 4

/-- CONTROL container header size in bytes (spec section 3). -/
def CONTAINER_CONTROL_HEADER_SIZE : Nat := 4

/-- ATT overhead subtracted from the MTU when sizing one frame (spec 4.3). -/
def CONTAINER_ATT_OVERHEAD : Nat := 3

/-- Control command codes (spec section 3). -/
def CONTROL_CMD_TIMEOUT : Nat := 1

def CONTROL_CMD_CAPABILITIES : Nat := 2

def CONTROL_CMD_ERROR : Nat := 3

def CONTROL_CMD_KEY_EXCHANGE : Nat := 4

def CONTROL_CMD_STREAM_END_P2C : Nat := 5

def CONTROL_CMD_STREAM_END_C2P : Nat := 6

/-- Error codes carried in a one byte CONTROL ERROR payload (spec section 6). -/
def BLERPC_ERROR_RESPONSE_TOO_LARGE : Nat := 1

def BLERPC_ERROR_UNKNOWN_COMMAND : Nat := 2

def BLERPC_ERROR_DECODE_FAILED : Nat := 3

def BLERPC_ERROR_HANDLER_FAILED : Nat := 4

def BLERPC_ERROR_NOT_ENCRYPTED_WHEN_REQUIRED : Nat := 5

/-- Capability flag bit 0 (spec section 6). -/
def CAPABILITY_FLAG_ENCRYPTION_SUPPORTED : Nat := 1

/-- Assembler capacity CONFIG_BLERPC_PROTOCOL_ASSEMBLER_BUF_SIZE; the build
configuration is not in the tree, the spec default is 4096 (spec section 6). -/
def CONFIG_BLERPC_PROTOCOL_ASSEMBLER_BUF_SIZE : Nat := 4096

/-- Container frame type, bits 7 and 6 of the flags byte (spec section 3). -/
inductive container_type where
  | first
  | subsequent
  | control
deriving DecidableEq, Repr

/-- Parsed container header, mirroring struct container_header as used by the
tests and by ble_service.c. The payload is carried as the byte list itself;
the payload_len field of the C struct is its length. -/
structure container_header where
  transaction_id : Nat
  sequence_number : Nat
  ctype : container_type
  control_cmd : Nat
  total_length : Nat
  payload : List Nat
deriving DecidableEq, Repr

/-- The payload_len field of a parsed header. -/
def container_header.payload_len (h : container_header) : Nat := h.payload.length

/-- Single slot reassembler state, mirroring struct container_assembler
(fields named in test_container.c: active, buf, total_length). -/
structure container_assembler where
  active : Bool
  transaction_id : Nat
  expected_sequence : Nat
  total_length : Nat
  buf : List Nat
deriving DecidableEq, Repr

/-- Reset the assembler to the idle state (container_assembler_init). -/
def container_assembler_init : container_assembler :=
  { active := false, transaction_id := 0, expected_sequence := 0, total_length := 0, buf := [] }

/-- Modelled from the spec: container.c is not in the source tree.
container_assembler_feed per spec section 4.2, pinned by
test_assembler_single, test_assembler_multi and test_assembler_sequence_gap:
returns 1 for Complete, 0 for Incomplete, -1 for Error; error always resets;
on Complete the buffer and total_length stay readable (on_write reads them)
while active returns to false. Sequence counters are u8, hence mod 256. -/
def container_assembler_feed (a : container_assembler) (h : container_header) :
    Int × container_assembler :=
  match h.ctype with
  | .first =>
    if a.active then (-1, container_assembler_init)
    else if CONFIG_BLERPC_PROTOCOL_ASSEMBLER_BUF_SIZE < h.total_length then
      (-1, container_assembler_init)
    else if h.total_length < h.payload.length then (-1, container_assembler_init)
    else if h.payload.length = h.total_length then
      (1, { active := false, transaction_id := h.transaction_id, expected_sequence := 1,
            total_length := h.total_length, buf := h.payload })
    else
      (0, { active := true, transaction_id := h.transaction_id, expected_sequence := 1,
            total_length := h.total_length, buf := h.payload })
  | .subsequent =>
    if ¬ a.active then (-1, container_assembler_init)
    else if h.transaction_id ≠ a.transaction_id then (-1, container_assembler_init)
    else if h.sequence_number ≠ a.expected_sequence then (-1, container_assembler_init)
    else if a.total_length < a.buf.length + h.payload.length then (-1, container_assembler_init)
    else if a.buf.length + h.payload.length = a.total_length then
      let a2 := { a with active := false, buf := a.buf ++ h.payload, expected_sequence := (a.expected_sequence + 1) % 256 }
      (1, a2)
    else
      let a2 := { a with buf := a.buf ++ h.payload, expected_sequence := (a.expected_sequence + 1) % 256 }
      (0, a2)
  | .control => (-1, container_assembler_init)

/-- Per frame payload capacity of a FIRST frame for a given MTU: bounded by
the MTU budget and by the u8 payload_len field (spec sections 3 and 4.3). -/
def split_first_cap (mtu : Nat) : Nat :=
  min (mtu - CONTAINER_ATT_OVERHEAD - CONTAINER_FIRST_HEADER_SIZE) 255

/-- Per frame payload capacity of a SUBSEQUENT frame (spec sections 3, 4.3). -/
def split_sub_cap (mtu : Nat) : Nat :=
  min (mtu - CONTAINER_ATT_OVERHEAD - CONTAINER_SUBSEQUENT_HEADER_SIZE) 255

/-- Fuel indexed helper for the tail of the one shot splitter; the fuel is an
upper bound on the number of frames still to emit, which keeps the recursion
structural so that concrete runs reduce in the kernel. -/
def split_tail_fuel (tid cap : Nat) : Nat → Nat → List Nat → List container_header
  | 0, _, _ => []
  | _ + 1, _, [] => []
  | fuel + 1, seq, x :: rest =>
    if cap = 0 then []
    else
      { transaction_id := tid % 256, sequence_number := seq % 256, ctype := .subsequent,
        control_cmd := 0, total_length := 0, payload := (x :: rest).take cap } ::
      split_tail_fuel tid cap fuel (seq + 1) ((x :: rest).drop cap)

/-- SUBSEQUENT frames emitted by the splitter for the remaining bytes,
with sequence numbers counted from seq. -/
def split_tail (tid cap seq : Nat) (rest : List Nat) : List container_header :=
  split_tail_fuel tid cap rest.length seq rest

/-- Modelled from the spec: container.c is not in the source tree.
container_split_and_send per spec section 4.3, pinned by
test_split_and_send_small and test_split_and_send_large: one FIRST frame with
total_length equal to the payload length (a u16 field, hence mod 65536) and
the first min(len, first_cap) bytes, then SUBSEQUENT frames of up to sub_cap
bytes with sequence numbers from 1. The send hook is modelled as collecting
the frames; send failures are not modelled. -/
def container_split_and_send (tid : Nat) (p : List Nat) (mtu : Nat) : List container_header :=
  { transaction_id := tid % 256, sequence_number := 0, ctype := .first, control_cmd := 0,
    total_length := p.length % 65536, payload := p.take (split_first_cap mtu) } ::
  split_tail tid (split_sub_cap mtu) 1 (p.drop (split_first_cap mtu))

/-- Feed a list of headers in order, collecting every feed result and the
final assembler state. -/
def feed_trace (a : container_assembler) : List container_header → List Int × container_assembler
  | [] => ([], a)
  | h :: rest =>
    let r := container_assembler_feed a h
    let rs := feed_trace r.2 rest
    (r.1 :: rs.1, rs.2)

/-- State of the streaming container sender, from struct streaming_ctx in
ble_service.c lines 99 to 108. cur holds the payload bytes buffered in the
current container (payload_used is its length); the 252 byte frame buffer
itself is not modelled, only the payload bytes written into it. -/
structure streaming_ctx where
  transaction_id : Nat
  mtu : Nat
  total_length : Nat
  seq : Nat
  cur : List Nat
  first_sent : Bool
deriving DecidableEq, Repr

/-- streaming_header_size from ble_service.c lines 124 to 127. -/
def streaming_header_size (c : streaming_ctx) : Nat :=
  if c.first_sent then CONTAINER_SUBSEQUENT_HEADER_SIZE else CONTAINER_FIRST_HEADER_SIZE

/-- streaming_max_payload from ble_service.c lines 129 to 132: the value
(mtu - ATT_OVERHEAD) - header_size is cast to uint8_t, hence the mod 256.
The subtraction underflows only for mtu below 9, which cannot arise since
the negotiated ATT MTU is at least 23. -/
def streaming_max_payload (c : streaming_ctx) : Nat :=
  (c.mtu - CONTAINER_ATT_OVERHEAD - streaming_header_size c) % 256

/-- streaming_flush_container from ble_service.c lines 134 to 166: an empty
buffer flushes to nothing; otherwise one frame is emitted (FIRST with the
u16 total_length field before the first flush, SUBSEQUENT afterwards), the
u8 sequence counter advances and the buffer empties. Send retries and send
errors are not modelled: the notify hook is modelled as collecting frames. -/
def streaming_flush_container (c : streaming_ctx) : streaming_ctx × List container_header :=
  if c.cur = [] then (c, [])
  else
    let h : container_header :=
      if c.first_sent then
        { transaction_id := c.transaction_id % 256, sequence_number := c.seq % 256,
          ctype := .subsequent, control_cmd := 0, total_length := 0, payload := c.cur }
      else
        { transaction_id := c.transaction_id % 256, sequence_number := c.seq % 256,
          ctype := .first, control_cmd := 0, total_length := c.total_length % 65536,
          payload := c.cur }
    let c2 := { c with seq := (c.seq + 1) % 256, first_sent := true, cur := [] }
    (c2, [h])

/-- Fuel indexed body of streaming_write from ble_service.c lines 168 to 193:
each loop iteration copies n = min(len, space) bytes into the current
container and flushes when it is full. When n = 0 the C loop makes no
progress and never terminates; this is modelled as none. The fuel is an
upper bound on the number of iterations (each productive iteration consumes
at least one byte), keeping the recursion structural. -/
def streaming_write_fuel : Nat → streaming_ctx → List Nat →
    Option (streaming_ctx × List container_header)
  | _, c, [] => some (c, [])
  | 0, _, _ :: _ => none
  | fuel + 1, c, x :: rest =>
    let maxp := streaming_max_payload c
    let space := maxp - c.cur.length
    let n := min (x :: rest).length space
    if n = 0 then none
    else
      let c1 : streaming_ctx := { c with cur := c.cur ++ (x :: rest).take n }
      let step := if maxp ≤ c1.cur.length then streaming_flush_container c1 else (c1, [])
      match streaming_write_fuel fuel step.1 ((x :: rest).drop n) with
      | none => none
      | some (c2, fs) => some (c2, step.2 ++ fs)

/-- streaming_write on a whole byte list (one C call). -/
def streaming_write (c : streaming_ctx) (data : List Nat) :
    Option (streaming_ctx × List container_header) :=
  streaming_write_fuel data.length c data

/-- One byte granularity refinement of streaming_write: append the byte to
the current container and flush when full. Used to reason about the chunked
loop; equal to it whenever the per frame capacities are nonzero. -/
def streaming_write_byte (c : streaming_ctx) (x : Nat) :
    streaming_ctx × List container_header :=
  let c1 : streaming_ctx := { c with cur := c.cur ++ [x] }
  if streaming_max_payload c ≤ c1.cur.length then streaming_flush_container c1 else (c1, [])

/-- One fold step over streaming_write_byte, accumulating emitted frames. -/
def swb_step (acc : streaming_ctx × List container_header) (x : Nat) :
    streaming_ctx × List container_header :=
  let st := streaming_write_byte acc.1 x
  (st.1, acc.2 ++ st.2)

/-- Fold streaming_write_byte over a byte list, accumulating frames. -/
def streaming_write_bytes (c : streaming_ctx) (data : List Nat) :
    streaming_ctx × List container_header :=
  data.foldl swb_step (c, [])

/-- Fresh streaming context as initialised in process_request, ble_service.c
lines 320 to 324: the u16 total_length field receives the total payload
length. -/
def streaming_ctx_init (tid mtu total : Nat) : streaming_ctx :=
  { transaction_id := tid, mtu := mtu, total_length := total % 65536, seq := 0, cur := [],
    first_sent := false }

/-- One incremental write step over an accumulated streaming state. -/
def streaming_pieces_step (acc : Option (streaming_ctx × List container_header))
    (piece : List Nat) : Option (streaming_ctx × List container_header) :=
  match acc with
  | none => none
  | some st =>
    match streaming_write st.1 piece with
    | none => none
    | some st2 => some (st2.1, st.2 ++ st2.2)

/-- Run the streaming sender on a list of incremental writes (the pieces) and
finish with the final streaming_flush_container, as process_request does:
returns the full frame sequence, or none when the C loop would not
terminate. -/
def streaming_send_pieces (tid mtu total : Nat) (pieces : List (List Nat)) :
    Option (List container_header) :=
  match pieces.foldl streaming_pieces_step (some (streaming_ctx_init tid mtu total, [])) with
  | none => none
  | some st =>
    let fin := streaming_flush_container st.1
    some (st.2 ++ fin.2)

/-- Parsed command envelope, mirroring struct command_packet. -/
structure command_packet where
  cmd_type : Nat
  cmd_name : List Nat
  data : List Nat
deriving DecidableEq, Repr

/-- The REQUEST and RESPONSE values of the cmd_type field. -/
def COMMAND_TYPE_REQUEST : Nat := 0

def COMMAND_TYPE_RESPONSE : Nat := 1

/-- Modelled from the spec: command.c is not in the source tree.
command_parse per spec section 4.4, pinned by test_command.c: byte 0 high bit
selects the type, byte 1 is cmd_name_len, failure when cmd_name_len is zero
or exceeds the remaining bytes or the trailing size differs from the
little endian data_len. -/
def command_parse (b : List Nat) : Option command_packet :=
  match b with
  | b0 :: b1 :: rest =>
    if b1 = 0 then none
    else if rest.length < b1 + 2 then none
    else
      match rest.drop b1 with
      | d0 :: d1 :: dataRest =>
        if dataRest.length = d0 + 256 * d1 then
          some { cmd_type := b0 / 128 % 2, cmd_name := rest.take b1, data := dataRest }
        else none
      | _ => none
  | _ => none

/-- Modelled from the spec: command.c is not in the source tree.
command_serialize per spec section 4.4 and test_command.c: writes the type
byte, the u8 name length, the name, the u16 little endian data length and
the data; fails when the output buffer is too small. -/
def command_serialize (ctype : Nat) (name data : List Nat) (bufSize : Nat) :
    Option (List Nat) :=
  if bufSize < 2 + name.length + 2 + data.length then none
  else
    some ([ctype % 2 * 128, name.length % 256] ++ name ++
      [data.length % 256, data.length / 256 % 256] ++ data)

/-- Result of one handler invocation, as seen by process_request: rc 0 with
the encoded body (the handler is deterministic across the sizing pass and
the encode pass, the documented two pass contract of spec section 9),
rc -2 for handlers that manage their own responses, any other nonzero rc is
an error. -/
inductive handler_result where
  | herr
  | hskip
  | hok (body : List Nat)
deriving DecidableEq, Repr

/-- process_request from ble_service.c lines 210 to 348, unencrypted build:
parse the command, require REQUEST, look up the handler, run the sizing
pass, enforce CONFIG_BLERPC_MAX_RESPONSE_PAYLOAD_SIZE (the check is compiled
in only when the configured cap is below 65535), then stream the response
header and body through the streaming container sender. The returned list
holds every frame sent to the client; error paths log and return without
sending. The handler table is a parameter (handlers_lookup). -/
def process_request (lookup : List Nat → Option (List Nat → handler_result))
    (maxResp mtu tid : Nat) (data : List Nat) : List container_header :=
  match command_parse data with
  | none => []
  | some cmd =>
    if cmd.cmd_type ≠ COMMAND_TYPE_REQUEST then []
    else
      match lookup cmd.cmd_name with
      | none => []
      | some h =>
        match h cmd.data with
        | .hskip => []
        | .herr => []
        | .hok body =>
          let cmd_hdr_size := 2 + cmd.cmd_name.length + 2
          let total_length := cmd_hdr_size + body.length
          if maxResp < 65535 ∧ maxResp < total_length then
            [{ transaction_id := tid % 256, sequence_number := 0, ctype := .control,
               control_cmd := CONTROL_CMD_ERROR, total_length := 0,
               payload := [BLERPC_ERROR_RESPONSE_TOO_LARGE] }]
          else if 20 < cmd_hdr_size then []
          else
            let cmd_hdr := [COMMAND_TYPE_RESPONSE % 2 * 128, cmd.cmd_name.length % 256] ++
              cmd.cmd_name ++ [body.length % 256, body.length / 256 % 256]
            match streaming_send_pieces tid mtu total_length [cmd_hdr, body] with
            | none => []
            | some fs => fs

/-- Session state of the peripheral BLE service, from the file scope statics
of ble_service.c: the single slot assembler, the encryption_active flag and
the handshake state. The handshake state type K and its step function are
abstract, since crypto.c is not in the source tree. -/
structure server_state (K : Type) where
  assembler : container_assembler
  encryption_active : Bool
  kx : K

/-- on_write from ble_service.c lines 358 to 502, at the granularity of one
parsed container header (container_parse_header precedes this code and is
not needed by the claims). Parameters: enc_compiled is the
CONFIG_BLERPC_ENCRYPTION build switch; kxh abstracts
blerpc_peripheral_kx_handle_step (new handshake state, and on success the
response payload together with the session_established flag); dec abstracts
blerpc_crypto_session_decrypt; maxReq, maxResp and timeout_ms are the
configured constants. Returns the new state, the frames notified to the
client and the request handed to the work queue, if any. -/
def on_write {K : Type} (enc_compiled : Bool)
    (kxh : K → List Nat → K × Option (List Nat × Bool))
    (dec : List Nat → Option (List Nat))
    (maxReq maxResp timeout_ms : Nat)
    (st : server_state K) (h : container_header) :
    server_state K × List container_header × Option (Nat × List Nat) :=
  if h.ctype = container_type.control then
    if h.control_cmd = CONTROL_CMD_TIMEOUT then
      (st, [{ transaction_id := h.transaction_id, sequence_number := 0,
              ctype := .control, control_cmd := CONTROL_CMD_TIMEOUT, total_length := 0,
              payload := [timeout_ms % 256, timeout_ms / 256 % 256] }], none)
    else if h.control_cmd = CONTROL_CMD_STREAM_END_C2P then
      (st, [], none)
    else if h.control_cmd = CONTROL_CMD_CAPABILITIES then
      (st, [{ transaction_id := h.transaction_id, sequence_number := 0,
              ctype := .control, control_cmd := CONTROL_CMD_CAPABILITIES, total_length := 0,
              payload := [maxReq % 256, maxReq / 256 % 256, maxResp % 256, maxResp / 256 % 256,
                (if enc_compiled then CAPABILITY_FLAG_ENCRYPTION_SUPPORTED else 0) % 256,
                (if enc_compiled then CAPABILITY_FLAG_ENCRYPTION_SUPPORTED else 0) / 256 % 256] }],
       none)
    else if enc_compiled ∧ h.control_cmd = CONTROL_CMD_KEY_EXCHANGE then
      if st.encryption_active then (st, [], none)
      else
        match kxh st.kx h.payload with
        | (kx2, none) =>
          let st2 := { st with kx := kx2 }
          (st2, [], none)
        | (kx2, some out) =>
          let st2 := { st with kx := kx2, encryption_active := out.2 || st.encryption_active }
          (st2, [{ transaction_id := h.transaction_id, sequence_number := 0,
                   ctype := .control, control_cmd := CONTROL_CMD_KEY_EXCHANGE, total_length := 0,
                   payload := out.1 }], none)
    else (st, [], none)
  else
    let fed := container_assembler_feed st.assembler h
    if fed.1 = 1 then
      if enc_compiled then
        if st.encryption_active then
          match dec fed.2.buf with
          | none =>
            let st2 := { st with assembler := container_assembler_init }
            (st2, [], none)
          | some plain =>
            let st2 := { st with assembler := container_assembler_init }
            (st2, [], some (h.transaction_id, plain))
        else
          let st2 := { st with assembler := container_assembler_init }
          (st2, [], none)
      else
        let st2 := { st with assembler := container_assembler_init }
        (st2, [], some (h.transaction_id, fed.2.buf))
    else if fed.1 < 0 then
      let st2 := { st with assembler := container_assembler_init }
      (st2, [], none)
    else
      let st2 := { st with assembler := fed.2 }
      (st2, [], none)

/-- Capability record kept by the central, from the file scope statics of
ble_central.c lines 40 to 42. -/
structure central_caps where
  max_request_payload_size : Nat
  max_response_payload_size : Nat
  capability_flags : Nat
deriving DecidableEq, Repr

/-- The CONTROL CAPABILITIES arm of notify_handler, ble_central.c lines 278
to 285: with at least 4 payload bytes the two u16 size fields are read
little endian, the flags are zeroed and then read from bytes 4 and 5 only
when the payload has at least 6 bytes. Any other frame leaves the record
unchanged (the remaining arms touch other state only). -/
def notify_handler_caps (st : central_caps) (h : container_header) : central_caps :=
  if h.ctype = container_type.control ∧ h.control_cmd = CONTROL_CMD_CAPABILITIES ∧
      4 ≤ h.payload.length then
    { max_request_payload_size := (h.payload.getD 0 0 + 256 * h.payload.getD 1 0) % 65536,
      max_response_payload_size := (h.payload.getD 2 0 + 256 * h.payload.getD 3 0) % 65536,
      capability_flags :=
        if 6 ≤ h.payload.length then (h.payload.getD 4 0 + 256 * h.payload.getD 5 0) % 65536
        else 0 }
  else st

/-- The byte string counter_stream, the method name used by the handler. -/
def counter_stream_name : List Nat := [99, 111, 117, 110, 116, 101, 114, 95, 115, 116, 114, 101, 97, 109]

/-- One observable send of the counter stream handler: either a command
payload submitted to ble_service_send_command_response under a transaction
id, or a STREAM_END_P2C control frame. -/
inductive handler_event where
  | cmd_response (tid : Nat) (cmd : List Nat)
  | stream_end_p2c (tid : Nat)
deriving DecidableEq, Repr

/-- MAX_COUNTER_STREAM_COUNT from handlers.c line 19. -/
def MAX_COUNTER_STREAM_COUNT : Nat := 10000

/-- The loop of handle_counter_stream, handlers.c lines 218 to 224, together
with send_one_counter_stream_response, lines 171 to 196: for each i the
protobuf body for seq = i, value = i * 10 is encoded (encodeResp abstracts
the nanopb encoder for blerpc_CounterStreamResponse, an opaque payload per
spec section 1; none models an encode failure), wrapped by command_serialize
into a 64 byte buffer, and sent under a fresh transaction id drawn from the
u8 counter tc. Returns whether every send succeeded, the next counter value
and the events in order; a failure stops the loop with rc -1 in the caller.
Sends themselves are modelled as always succeeding. -/
def counter_stream_loop (encodeResp : Nat → Int → Option (List Nat)) :
    Nat → Nat → Nat → Bool × Nat × List handler_event
  | 0, _, tc => (true, tc, [])
  | n + 1, i, tc =>
    match encodeResp i (10 * i) with
    | none => (false, tc, [])
    | some pb =>
      match command_serialize COMMAND_TYPE_RESPONSE counter_stream_name pb 64 with
      | none => (false, tc, [])
      | some cmd =>
        let rest := counter_stream_loop encodeResp n (i + 1) (tc + 1)
        (rest.1, rest.2.1, handler_event.cmd_response (tc % 256) cmd :: rest.2.2)

/-- handle_counter_stream from handlers.c lines 198 to 232: counts above
MAX_COUNTER_STREAM_COUNT are rejected with rc -1; otherwise count responses
are sent, then one STREAM_END_P2C under its own fresh transaction id, and
the handler returns -2 (skip response). The protobuf decode of the request
is abstracted: the model receives the decoded count directly. -/
def handle_counter_stream (encodeResp : Nat → Int → Option (List Nat))
    (count tc : Nat) : Int × Nat × List handler_event :=
  if MAX_COUNTER_STREAM_COUNT < count then (-1, tc, [])
  else
    let run := counter_stream_loop encodeResp count 0 tc
    if run.1 then
      (-2, run.2.1 + 1, run.2.2 ++ [handler_event.stream_end_p2c (run.2.1 % 256)])
    else (-1, run.2.1, run.2.2)

/-- Abbreviation for an active assembler in the middle of a transaction,
used to phrase the reassembly invariant. -/
def assembling_state (t exp total : Nat) (done : List Nat) : container_assembler :=
  { active := true, transaction_id := t, expected_sequence := exp, total_length := total,
    buf := done }

/-- A list with getLast? some value is not empty. -/
theorem ne_nil_of_getLast?_eq_some {α : Type} {l : List α} {a : α}
    (h : l.getLast? = some a) : l ≠ [] := by
  intro hl
  subst hl
  simp at h

/-- dropLast of a cons with a nonempty tail. -/
theorem dropLast_cons_of_ne_nil {α : Type} (a : α) {l : List α} (h : l ≠ []) :
    (a :: l).dropLast = a :: l.dropLast := by
  cases l with
  | nil => cases h rfl
  | cons b t => rfl

/-- getLast? of a cons with a nonempty tail. -/
theorem getLast?_cons_of_ne_nil {α : Type} (a : α) {l : List α} (h : l ≠ []) :
    (a :: l).getLast? = l.getLast? := by
  cases l with
  | nil => cases h rfl
  | cons b t => simp

/-- C1: the claim says process_request reports command errors (parse failure,
wrong packet type, unknown command, handler failure) to the client as a
CONTROL ERROR frame with codes 2, 3 or 4. The code does not: every command
error path in ble_service.c lines 210 to 241 logs locally and returns
without sending anything. At the concrete request consisting of the single
byte 0, command parsing fails and the dispatcher sends no frame at all. -/
theorem C1_counterexample :
    command_parse [0] = none ∧
    process_request (fun _ => none) 4096 247 5 [0] = [] :=
  ⟨rfl, rfl⟩

/-- C1 amended: on every command error (the command fails to parse, the
packet type is not REQUEST, no handler is registered, or the handler
returns an error) the dispatcher sends no frame to the client at all; in
particular no CONTROL ERROR frame with codes 2, 3 or 4 is ever produced on
these paths. -/
theorem C1_command_errors_silent
    (lookup : List Nat → Option (List Nat → handler_result))
    (maxResp mtu tid : Nat) (data : List Nat)
    (herrcase :
      command_parse data = none ∨
      ∃ cmd, command_parse data = some cmd ∧
        (cmd.cmd_type ≠ COMMAND_TYPE_REQUEST ∨ lookup cmd.cmd_name = none ∨
          ∃ hf, lookup cmd.cmd_name = some hf ∧ hf cmd.data = handler_result.herr)) :
    process_request lookup maxResp mtu tid data = [] := by
  unfold process_request
  rcases herrcase with hp | ⟨cmd, hp, hcase⟩
  · rw [hp]
  · rw [hp]
    rcases hcase with ht | hl | ⟨hf, hl, hr⟩
    · simp [ht]
    · by_cases htype : cmd.cmd_type = COMMAND_TYPE_REQUEST
      · simp [htype, hl]
      · simp [htype]
    · by_cases htype : cmd.cmd_type = COMMAND_TYPE_REQUEST
      · simp [htype, hl, hr]
      · simp [htype]

/-- C1 witness: the amended theorem applied to the four concrete error
cases, one input each. -/
theorem C1_command_errors_silent_witness :
    process_request (fun _ => none) 4096 247 5 [0] = [] ∧
    process_request (fun _ => none) 4096 247 5 [128, 1, 97, 0, 0] = [] ∧
    process_request (fun _ => none) 4096 247 5 [0, 1, 97, 0, 0] = [] ∧
    process_request (fun _ => some (fun _ => handler_result.herr)) 4096 247 5
      [0, 1, 97, 0, 0] = [] := by
  refine ⟨?_, ?_, ?_, ?_⟩
  · exact C1_command_errors_silent _ 4096 247 5 [0] (Or.inl rfl)
  · exact C1_command_errors_silent _ 4096 247 5 [128, 1, 97, 0, 0]
      (Or.inr ⟨_, rfl, Or.inl (by decide)⟩)
  · exact C1_command_errors_silent _ 4096 247 5 [0, 1, 97, 0, 0]
      (Or.inr ⟨_, rfl, Or.inr (Or.inl rfl)⟩)
  · exact C1_command_errors_silent _ 4096 247 5 [0, 1, 97, 0, 0]
      (Or.inr ⟨_, rfl, Or.inr (Or.inr ⟨_, rfl, rfl⟩)⟩)

/-- C3: whenever pass 1 sizing yields total_length = command_header_size +
body_size strictly above the configured response cap (the check is active
for any cap below 65535, which holds for the spec default 4096), the
dispatcher sends exactly one CONTROL ERROR frame whose one byte payload is
code 1 (RESPONSE_TOO_LARGE) under the request transaction id, and no
response frames at all for that transaction. -/
theorem C3_response_too_large
    (lookup : List Nat → Option (List Nat → handler_result))
    (maxResp mtu tid : Nat) (data : List Nat)
    (cmd : command_packet) (hf : List Nat → handler_result) (body : List Nat)
    (hp : command_parse data = some cmd)
    (ht : cmd.cmd_type = COMMAND_TYPE_REQUEST)
    (hl : lookup cmd.cmd_name = some hf)
    (hr : hf cmd.data = handler_result.hok body)
    (hcfg : maxResp < 65535)
    (hbig : maxResp < 2 + cmd.cmd_name.length + 2 + body.length) :
    process_request lookup maxResp mtu tid data =
      [{ transaction_id := tid % 256, sequence_number := 0,
         ctype := container_type.control, control_cmd := CONTROL_CMD_ERROR,
         total_length := 0, payload := [BLERPC_ERROR_RESPONSE_TOO_LARGE] }] := by
  unfold process_request
  rw [hp]
  simp only [ht, COMMAND_TYPE_REQUEST, ne_eq, not_true_eq_false, if_false, hl, hr]
  have hcond : maxResp < 65535 ∧ maxResp < 2 + cmd.cmd_name.length + 2 + body.length :=
    ⟨hcfg, hbig⟩
  simp [hcond, hcfg, hbig]

/-- C3 witness: a handler whose sized body has 200 bytes against a cap of
100 produces exactly the RESPONSE_TOO_LARGE control frame. -/
theorem C3_response_too_large_witness :
    process_request
      (fun n => if n = [101, 99, 104, 111] then
        some (fun _ => handler_result.hok (List.replicate 200 7)) else none)
      100 247 9 [0, 4, 101, 99, 104, 111, 0, 0] =
      [{ transaction_id := 9, sequence_number := 0,
         ctype := container_type.control, control_cmd := CONTROL_CMD_ERROR,
         total_length := 0, payload := [BLERPC_ERROR_RESPONSE_TOO_LARGE] }] := by
  have := C3_response_too_large
    (fun n => if n = [101, 99, 104, 111] then
      some (fun _ => handler_result.hok (List.replicate 200 7)) else none)
    100 247 9 [0, 4, 101, 99, 104, 111, 0, 0]
    { cmd_type := 0, cmd_name := [101, 99, 104, 111], data := [] }
    (fun _ => handler_result.hok (List.replicate 200 7)) (List.replicate 200 7)
    rfl rfl rfl rfl (by decide) (by rw [List.length_replicate]; omega)
  simpa using this

/-- C5: whenever container_assembler_feed returns an error the assembler is
reset to the idle state (in particular it is left inactive), for every
starting state and every fed header; and in the server receive path every
negative feed result makes on_write re-initialise the assembler and send no
frame to the peer and dispatch nothing. -/
theorem C5_feed_error_resets :
    (∀ (a : container_assembler) (h : container_header),
        (container_assembler_feed a h).1 < 0 →
        (container_assembler_feed a h).2 = container_assembler_init) ∧
    (∀ (K : Type) (enc_compiled : Bool)
        (kxh : K → List Nat → K × Option (List Nat × Bool))
        (dec : List Nat → Option (List Nat)) (maxReq maxResp timeout_ms : Nat)
        (st : server_state K) (h : container_header),
        h.ctype ≠ container_type.control →
        (container_assembler_feed st.assembler h).1 < 0 →
        on_write enc_compiled kxh dec maxReq maxResp timeout_ms st h =
          ({ st with assembler := container_assembler_init }, [], none)) := by
  constructor
  · intro a h hlt
    unfold container_assembler_feed at hlt ⊢
    cases hc : h.ctype <;> simp only [hc] at hlt ⊢ <;>
      split_ifs at hlt ⊢ <;> simp_all
  · intro K enc kxh dec mr mrs t st h hctl hlt
    unfold on_write
    rw [if_neg hctl]
    have h1 : ¬ ((container_assembler_feed st.assembler h).1 = 1) := by omega
    simp only [h1, if_false, hlt, if_true]

/-- C5 witness: the concrete sequence gap scenario of the spec (FIRST with
transaction 2, total 10, three bytes, then SUBSEQUENT with sequence 2 where
1 was expected) applied to both halves of the theorem. -/
theorem C5_feed_error_resets_witness :
    ((container_assembler_feed
        (container_assembler_feed container_assembler_init
          { transaction_id := 2, sequence_number := 0, ctype := container_type.first,
            control_cmd := 0, total_length := 10, payload := [97, 98, 99] }).2
        { transaction_id := 2, sequence_number := 2, ctype := container_type.subsequent,
          control_cmd := 0, total_length := 0, payload := [100, 101, 102] }).2 =
      container_assembler_init) ∧
    (on_write false (fun (k : Unit) _ => (k, none)) (fun _ => none) 4096 4096 10000
        { assembler := (container_assembler_feed container_assembler_init
            { transaction_id := 2, sequence_number := 0, ctype := container_type.first,
              control_cmd := 0, total_length := 10, payload := [97, 98, 99] }).2,
          encryption_active := false, kx := () }
        { transaction_id := 2, sequence_number := 2, ctype := container_type.subsequent,
          control_cmd := 0, total_length := 0, payload := [100, 101, 102] } =
      ({ assembler := container_assembler_init, encryption_active := false, kx := () },
        [], none)) := by
  constructor
  · exact C5_feed_error_resets.1 _ _ (by decide)
  · exact C5_feed_error_resets.2 Unit false _ _ 4096 4096 10000 _ _ (by decide) (by decide)

/-- C6: while encryption_active is true, a received CONTROL KEY_EXCHANGE
frame leaves the whole server state unchanged (in particular the handshake
state kx), sends nothing and dispatches nothing, for every abstract
handshake step function; so no key exchange can advance during an active
encrypted session. -/
theorem C6_key_exchange_blocked_when_active
    (K : Type) (kxh : K → List Nat → K × Option (List Nat × Bool))
    (dec : List Nat → Option (List Nat)) (maxReq maxResp timeout_ms : Nat)
    (st : server_state K) (h : container_header)
    (hactive : st.encryption_active = true)
    (hct : h.ctype = container_type.control)
    (hcmd : h.control_cmd = CONTROL_CMD_KEY_EXCHANGE) :
    on_write true kxh dec maxReq maxResp timeout_ms st h = (st, [], none) := by
  unfold on_write
  rw [if_pos hct, hcmd]
  simp [CONTROL_CMD_TIMEOUT, CONTROL_CMD_KEY_EXCHANGE, CONTROL_CMD_STREAM_END_C2P,
    CONTROL_CMD_CAPABILITIES, hactive]

/-- C6 witness: a concrete key exchange frame against an active session. -/
theorem C6_key_exchange_blocked_when_active_witness :
    on_write true (fun (k : Nat) p => (k + p.length, some ([1, 2], true))) (fun _ => none)
      4096 4096 10000
      { assembler := container_assembler_init, encryption_active := true, kx := 3 }
      { transaction_id := 0, sequence_number := 0, ctype := container_type.control,
        control_cmd := CONTROL_CMD_KEY_EXCHANGE, total_length := 0, payload := [5, 6, 7] } =
      ({ assembler := container_assembler_init, encryption_active := true, kx := 3 },
        [], none) :=
  C6_key_exchange_blocked_when_active Nat _ _ 4096 4096 10000 _ _ rfl rfl rfl

/-- C7: every received CONTROL CAPABILITIES frame is answered with exactly
one CONTROL CAPABILITIES frame under the same transaction id whose payload
is exactly six bytes: max_request_payload_size and
max_response_payload_size as little endian u16 values, then a little endian
u16 flags word that is CAPABILITY_FLAG_ENCRYPTION_SUPPORTED (bit 0) when
encryption support is compiled in and 0 otherwise, with all other flag bits
zero; the state is unchanged and nothing is dispatched. -/
theorem C7_capabilities_response
    (K : Type) (enc_compiled : Bool)
    (kxh : K → List Nat → K × Option (List Nat × Bool))
    (dec : List Nat → Option (List Nat)) (maxReq maxResp timeout_ms : Nat)
    (st : server_state K) (h : container_header)
    (hct : h.ctype = container_type.control)
    (hcmd : h.control_cmd = CONTROL_CMD_CAPABILITIES) :
    on_write enc_compiled kxh dec maxReq maxResp timeout_ms st h =
      (st, [{ transaction_id := h.transaction_id, sequence_number := 0,
              ctype := container_type.control, control_cmd := CONTROL_CMD_CAPABILITIES,
              total_length := 0,
              payload := [maxReq % 256, maxReq / 256 % 256, maxResp % 256, maxResp / 256 % 256,
                if enc_compiled then 1 else 0, 0] }], none) := by
  unfold on_write
  rw [if_pos hct, hcmd]
  have hflag : ((if enc_compiled then CAPABILITY_FLAG_ENCRYPTION_SUPPORTED else 0) % 256 =
      if enc_compiled then 1 else 0) ∧
      (if enc_compiled then CAPABILITY_FLAG_ENCRYPTION_SUPPORTED else 0) / 256 % 256 = 0 := by
    cases enc_compiled <;> simp [CAPABILITY_FLAG_ENCRYPTION_SUPPORTED]
  simp [CONTROL_CMD_TIMEOUT, CONTROL_CMD_CAPABILITIES, CONTROL_CMD_STREAM_END_C2P,
    hflag.1, hflag.2]

/-- C7 witness: the encrypted build with the default configured sizes
answers a capabilities request with the six byte payload and flag bit 0
set. -/
theorem C7_capabilities_response_witness :
    on_write true (fun (k : Unit) _ => (k, none)) (fun _ => none) 4096 4096 10000
      { assembler := container_assembler_init, encryption_active := false, kx := () }
      { transaction_id := 4, sequence_number := 0, ctype := container_type.control,
        control_cmd := CONTROL_CMD_CAPABILITIES, total_length := 0, payload := [] } =
      ({ assembler := container_assembler_init, encryption_active := false, kx := () },
        [{ transaction_id := 4, sequence_number := 0, ctype := container_type.control,
           control_cmd := CONTROL_CMD_CAPABILITIES, total_length := 0,
           payload := [0, 16, 0, 16, 1, 0] }], none) := by
  have := C7_capabilities_response Unit true (fun k _ => (k, none)) (fun _ => none)
    4096 4096 10000
    { assembler := container_assembler_init, encryption_active := false, kx := () }
    { transaction_id := 4, sequence_number := 0, ctype := container_type.control,
      control_cmd := CONTROL_CMD_CAPABILITIES, total_length := 0, payload := [] }
    rfl rfl
  simpa using this

/-- C10: in the encrypted build, while encryption is not yet active, a
frame that completes an assembly is silently discarded: the assembler is
re-initialised, nothing is decrypted (the abstract decrypt function is
never consulted, being universally quantified), nothing is dispatched to
the worker, and no frame at all (in particular no CONTROL ERROR with code
5) is sent to the client. -/
theorem C10_unencrypted_payload_dropped
    (K : Type) (kxh : K → List Nat → K × Option (List Nat × Bool))
    (dec : List Nat → Option (List Nat)) (maxReq maxResp timeout_ms : Nat)
    (st : server_state K) (h : container_header)
    (hct : h.ctype ≠ container_type.control)
    (hinactive : st.encryption_active = false)
    (hfeed : (container_assembler_feed st.assembler h).1 = 1) :
    on_write true kxh dec maxReq maxResp timeout_ms st h =
      ({ st with assembler := container_assembler_init }, [], none) := by
  unfold on_write
  rw [if_neg hct]
  simp only [hfeed, if_true, hinactive, if_false, Bool.false_eq_true]

/-- C10 witness: a single frame assembly completing while encryption is
compiled in but not active. -/
theorem C10_unencrypted_payload_dropped_witness :
    on_write true (fun (k : Unit) _ => (k, none)) (fun _ => some [9, 9])
      4096 4096 10000
      { assembler := container_assembler_init, encryption_active := false, kx := () }
      { transaction_id := 1, sequence_number := 0, ctype := container_type.first,
        control_cmd := 0, total_length := 3, payload := [10, 11, 12] } =
      ({ assembler := container_assembler_init, encryption_active := false, kx := () },
        [], none) :=
  C10_unencrypted_payload_dropped Unit _ _ 4096 4096 10000 _ _
    (by decide) rfl (by decide)

/-- C8: a CONTROL CAPABILITIES frame received by the central with at least 4
but fewer than 6 payload bytes sets max_request_payload_size and
max_response_payload_size from the first four bytes little endian and zeroes
the capability flags (encryption unknown means off); the flags are taken
from bytes 4 and 5 exactly when the payload has at least 6 bytes. -/
theorem C8_short_capabilities_zero_flags :
    (∀ (st : central_caps) (h : container_header),
        h.ctype = container_type.control → h.control_cmd = CONTROL_CMD_CAPABILITIES →
        4 ≤ h.payload.length → h.payload.length < 6 →
        notify_handler_caps st h =
          { max_request_payload_size :=
              (h.payload.getD 0 0 + 256 * h.payload.getD 1 0) % 65536,
            max_response_payload_size :=
              (h.payload.getD 2 0 + 256 * h.payload.getD 3 0) % 65536,
            capability_flags := 0 }) ∧
    (∀ (st : central_caps) (h : container_header),
        h.ctype = container_type.control → h.control_cmd = CONTROL_CMD_CAPABILITIES →
        6 ≤ h.payload.length →
        (notify_handler_caps st h).capability_flags =
          (h.payload.getD 4 0 + 256 * h.payload.getD 5 0) % 65536) := by
  constructor
  · intro st h hct hcmd hge hlt
    unfold notify_handler_caps
    rw [if_pos ⟨hct, hcmd, hge⟩]
    have h6 : ¬ (6 ≤ h.payload.length) := by omega
    simp [h6]
  · intro st h hct hcmd hge
    unfold notify_handler_caps
    have hge4 : 4 ≤ h.payload.length := by omega
    rw [if_pos ⟨hct, hcmd, hge4⟩]
    simp [hge]

/-- C8 witness: a four byte capabilities payload yields flags 0; a six byte
payload with flag bytes 1, 0 yields flags 1. -/
theorem C8_short_capabilities_zero_flags_witness :
    notify_handler_caps
      { max_request_payload_size := 0, max_response_payload_size := 0, capability_flags := 77 }
      { transaction_id := 0, sequence_number := 0, ctype := container_type.control,
        control_cmd := CONTROL_CMD_CAPABILITIES, total_length := 0,
        payload := [0, 16, 0, 16] } =
      { max_request_payload_size := 4096, max_response_payload_size := 4096,
        capability_flags := 0 } ∧
    (notify_handler_caps
      { max_request_payload_size := 0, max_response_payload_size := 0, capability_flags := 77 }
      { transaction_id := 0, sequence_number := 0, ctype := container_type.control,
        control_cmd := CONTROL_CMD_CAPABILITIES, total_length := 0,
        payload := [0, 16, 0, 16, 1, 0] }).capability_flags = 1 := by
  constructor
  · have := C8_short_capabilities_zero_flags.1
      { max_request_payload_size := 0, max_response_payload_size := 0, capability_flags := 77 }
      { transaction_id := 0, sequence_number := 0, ctype := container_type.control,
        control_cmd := CONTROL_CMD_CAPABILITIES, total_length := 0,
        payload := [0, 16, 0, 16] } rfl rfl (by decide) (by decide)
    simpa using this
  · have := C8_short_capabilities_zero_flags.2
      { max_request_payload_size := 0, max_response_payload_size := 0, capability_flags := 77 }
      { transaction_id := 0, sequence_number := 0, ctype := container_type.control,
        control_cmd := CONTROL_CMD_CAPABILITIES, total_length := 0,
        payload := [0, 16, 0, 16, 1, 0] } rfl rfl (by decide)
    simpa using this

/-- command_serialize of a counter stream response body that fits the 64
byte command buffer (nanopb bounds the encoded size of the message). -/
theorem command_serialize_counter_stream (d : List Nat) (hd : d.length ≤ 46) :
    command_serialize COMMAND_TYPE_RESPONSE counter_stream_name d 64 =
      some ([128, 14] ++ counter_stream_name ++
        [d.length % 256, d.length / 256 % 256] ++ d) := by
  unfold command_serialize
  have hfit : ¬ (64 < 2 + counter_stream_name.length + 2 + d.length) := by
    simp only [counter_stream_name, List.length_cons, List.length_nil]
    omega
  rw [if_neg hfit]
  simp [counter_stream_name, COMMAND_TYPE_RESPONSE]

/-- The counter stream loop sends one response per index with consecutive
transaction ids, provided every body encodes and fits the buffer. -/
theorem counter_stream_loop_eq (encodeResp : Nat → Int → Option (List Nat))
    (pb : Nat → List Nat) :
    ∀ (n i tc : Nat),
      (∀ k, i ≤ k → k < i + n → encodeResp k (10 * k) = some (pb k) ∧
        (pb k).length ≤ 46) →
      counter_stream_loop encodeResp n i tc =
        (true, tc + n, (List.range n).map (fun j =>
          handler_event.cmd_response ((tc + j) % 256)
            ([128, 14] ++ counter_stream_name ++
              [(pb (i + j)).length % 256, (pb (i + j)).length / 256 % 256] ++ pb (i + j)))) := by
  intro n
  induction n with
  | zero => intro i tc _; simp [counter_stream_loop]
  | succ m ih =>
    intro i tc hh
    have h0 := hh i (Nat.le_refl i) (by omega)
    have hrec := ih (i + 1) (tc + 1) (fun k hk1 hk2 => hh k (by omega) (by omega))
    unfold counter_stream_loop
    simp only [h0.1, command_serialize_counter_stream (pb i) h0.2, hrec]
    rw [List.range_succ_eq_map]
    simp only [List.map_cons, List.map_map, Prod.mk.injEq, List.cons.injEq, Nat.add_zero]
    refine ⟨trivial, by omega, trivial, ?_⟩
    apply List.map_congr_left
    intro j _
    simp only [Function.comp_apply, Nat.succ_eq_add_one]
    have e3 : tc + 1 + j = tc + (j + 1) := by omega
    have e4 : i + 1 + j = i + (j + 1) := by omega
    rw [e3, e4]

/-- C9: a counter_stream request with count n within the handler limit makes
the handler send exactly n RESPONSE command payloads in order, the payload
for index i carrying the encoded body for seq = i and value = i * 10, each
under its own freshly allocated consecutive transaction id, followed by
exactly one STREAM_END_P2C control frame under the next transaction id, and
the handler returns the skip response code -2 so the dispatcher sends no
additional response. encodeResp abstracts the nanopb encoder for
blerpc_CounterStreamResponse; the bound 46 is the buffer slack left by the
64 byte command buffer, which nanopb guarantees via the generated maximum
message size. -/
theorem C9_counter_stream_events (encodeResp : Nat → Int → Option (List Nat))
    (pb : Nat → List Nat) (count tc : Nat)
    (hcount : count ≤ MAX_COUNTER_STREAM_COUNT)
    (henc : ∀ i, i < count → encodeResp i (10 * i) = some (pb i) ∧ (pb i).length ≤ 46) :
    handle_counter_stream encodeResp count tc =
      (-2, tc + count + 1,
        (List.range count).map (fun i =>
          handler_event.cmd_response ((tc + i) % 256)
            ([128, 14] ++ counter_stream_name ++
              [(pb i).length % 256, (pb i).length / 256 % 256] ++ pb i)) ++
        [handler_event.stream_end_p2c ((tc + count) % 256)]) := by
  unfold handle_counter_stream
  rw [if_neg (by omega)]
  rw [counter_stream_loop_eq encodeResp pb count 0 tc
    (fun k _ hk => henc k (by omega))]
  simp

/-- C9 witness: five one byte bodies, starting from transaction id 7. -/
theorem C9_counter_stream_events_witness :
    handle_counter_stream (fun i _ => some [i % 256]) 5 7 =
      (-2, 7 + 5 + 1,
        (List.range 5).map (fun i =>
          handler_event.cmd_response ((7 + i) % 256)
            ([128, 14] ++ counter_stream_name ++
              [[i % 256].length % 256, [i % 256].length / 256 % 256] ++ [i % 256])) ++
        [handler_event.stream_end_p2c ((7 + 5) % 256)]) :=
  C9_counter_stream_events (fun i _ => some [i % 256]) (fun i => [i % 256]) 5 7
    (by decide) (fun i _ => ⟨rfl, by simp⟩)

/-- The fuel indexed splitter tail does not depend on the fuel once the fuel
covers the list length. -/
theorem split_tail_fuel_norm (tid cap : Nat) :
    ∀ (fuel seq : Nat) (l : List Nat), l.length ≤ fuel →
      split_tail_fuel tid cap fuel seq l = split_tail tid cap seq l := by
  intro fuel
  induction fuel using Nat.strong_induction_on with
  | _ fuel ih =>
    intro seq l hl
    cases l with
    | nil => cases fuel <;> simp [split_tail, split_tail_fuel]
    | cons x rest =>
      cases fuel with
      | zero => simp at hl
      | succ f =>
        by_cases hcap : cap = 0
        · simp [split_tail, split_tail_fuel, hcap]
        · have hlen : rest.length ≤ f := by simpa using hl
          have hd1 : ((x :: rest).drop cap).length ≤ rest.length := by
            simp [List.length_drop]
            omega
          simp only [split_tail, List.length_cons, split_tail_fuel, if_neg hcap]
          congr 1
          rw [ih f (by omega) (seq + 1) _ (le_trans hd1 hlen),
            ih rest.length (by omega) (seq + 1) _ hd1]

/-- Unfolding equation of split_tail on a nonempty list with nonzero
capacity. -/
theorem split_tail_cons (tid cap seq : Nat) (x : Nat) (rest : List Nat)
    (hcap : cap ≠ 0) :
    split_tail tid cap seq (x :: rest) =
      { transaction_id := tid % 256, sequence_number := seq % 256,
        ctype := container_type.subsequent, control_cmd := 0, total_length := 0,
        payload := (x :: rest).take cap } ::
      split_tail tid cap (seq + 1) ((x :: rest).drop cap) := by
  have hd1 : ((x :: rest).drop cap).length ≤ rest.length := by
    simp [List.length_drop]
    omega
  simp only [split_tail, List.length_cons, split_tail_fuel, if_neg hcap]
  congr 1
  exact split_tail_fuel_norm tid cap rest.length (seq + 1) _ hd1

/-- split_tail of the empty remainder is empty. -/
theorem split_tail_nil (tid cap seq : Nat) : split_tail tid cap seq [] = [] := by
  simp [split_tail, split_tail_fuel]

/-- Reassembly invariant: an assembler in the middle of a transaction,
holding the bytes done of a payload with total bytes overall, consumes the
splitter tail frames for the remaining bytes: every intermediate feed
returns 0, the final feed returns 1, and the buffer then holds the whole
payload. -/
theorem split_tail_feed_trace (tid cap total : Nat) (hcap : cap ≠ 0) :
    ∀ (n : Nat) (rest done : List Nat) (k : Nat), rest.length = n → rest ≠ [] →
      done.length + rest.length = total →
      (feed_trace (assembling_state (tid % 256) ((k + 1) % 256) total done)
          (split_tail tid cap (k + 1) rest)).1.getLast? = some 1 ∧
      (∀ r ∈ (feed_trace (assembling_state (tid % 256) ((k + 1) % 256) total done)
          (split_tail tid cap (k + 1) rest)).1.dropLast, r = 0) ∧
      (feed_trace (assembling_state (tid % 256) ((k + 1) % 256) total done)
          (split_tail tid cap (k + 1) rest)).2.buf = done ++ rest ∧
      (feed_trace (assembling_state (tid % 256) ((k + 1) % 256) total done)
          (split_tail tid cap (k + 1) rest)).2.active = false := by
  intro n
  induction n using Nat.strong_induction_on with
  | _ n ih =>
    intro rest done k hn hne hsum
    cases rest with
    | nil => cases hne rfl
    | cons x rest' =>
      simp only [List.length_cons] at hn hsum
      rw [split_tail_cons tid cap (k + 1) x rest' hcap]
      by_cases hle : rest'.length + 1 ≤ cap
      · -- the frame carries the whole remainder and completes the assembly
        have htake : (x :: rest').take cap = x :: rest' :=
          List.take_of_length_le (by simpa using hle)
        have hdrop : (x :: rest').drop cap = [] :=
          List.drop_eq_nil_of_le (by simpa using hle)
        rw [hdrop, split_tail_nil]
        simp only [feed_trace, container_assembler_feed, assembling_state, htake]
        simp [hsum]
      · -- the frame carries cap bytes and the assembly continues
        have htklen : ((x :: rest').take cap).length = cap := by
          simp only [List.length_take, List.length_cons]
          omega
        have hmid : done.length + ((x :: rest').take cap).length < total := by
          rw [htklen]
          omega
        have hexp : ((k + 1) % 256 + 1) % 256 = (k + 1 + 1) % 256 := by omega
        have hstep : container_assembler_feed
            (assembling_state (tid % 256) ((k + 1) % 256) total done)
            { transaction_id := tid % 256, sequence_number := (k + 1) % 256,
              ctype := container_type.subsequent, control_cmd := 0, total_length := 0,
              payload := (x :: rest').take cap } =
            (0, assembling_state (tid % 256) ((k + 1 + 1) % 256) total
              (done ++ (x :: rest').take cap)) := by
          simp only [container_assembler_feed, assembling_state]
          rw [if_neg (by simp), if_neg (by simp), if_neg (by simp),
            if_neg (by omega), if_neg (by omega)]
          simp [hexp]
        have hrec := ih ((x :: rest').drop cap).length
          (by simp only [List.length_drop, List.length_cons]; omega)
          ((x :: rest').drop cap) (done ++ (x :: rest').take cap) (k + 1) rfl
          (List.ne_nil_of_length_pos
            (by simp only [List.length_drop, List.length_cons]; omega))
          (by simp only [List.length_append, List.length_drop, List.length_cons, htklen]
              omega)
        simp only [feed_trace, hstep]
        have hjoin : done ++ (x :: rest').take cap ++ (x :: rest').drop cap =
            done ++ (x :: rest') := by
          rw [List.append_assoc, List.take_append_drop]
        obtain ⟨hlast, hzeros, hbuf, hact⟩ := hrec
        have hrsne : (feed_trace (assembling_state (tid % 256) ((k + 1 + 1) % 256) total
            (done ++ (x :: rest').take cap))
            (split_tail tid cap (k + 1 + 1) ((x :: rest').drop cap))).1 ≠ [] :=
          ne_nil_of_getLast?_eq_some hlast
        refine ⟨?_, ?_, ?_, ?_⟩
        · rw [getLast?_cons_of_ne_nil 0 hrsne]
          exact hlast
        · rw [dropLast_cons_of_ne_nil 0 hrsne]
          intro r hr
          rcases List.mem_cons.mp hr with h0 | hmem
          · exact h0
          · exact hzeros r hmem
        · rw [hbuf, hjoin]
        · exact hact

/-- C2: for every payload p with 0 < len <= ASSEMBLER_BUF_SIZE and every
mtu >= 23, parsing the frames emitted by container_split_and_send in order
into a freshly initialised assembler returns Incomplete (0) on every frame
but the last, Complete (1) exactly on the last frame, and leaves the
assembler buffer holding exactly the bytes of p. -/
theorem C2_split_and_assemble_roundtrip (p : List Nat) (mtu tid : Nat)
    (hpos : 0 < p.length)
    (hcap : p.length ≤ CONFIG_BLERPC_PROTOCOL_ASSEMBLER_BUF_SIZE)
    (hmtu : 23 ≤ mtu) :
    (∀ r ∈ (feed_trace container_assembler_init
        (container_split_and_send tid p mtu)).1.dropLast, r = 0) ∧
    (feed_trace container_assembler_init
        (container_split_and_send tid p mtu)).1.getLast? = some 1 ∧
    (feed_trace container_assembler_init
        (container_split_and_send tid p mtu)).2.buf = p ∧
    (feed_trace container_assembler_init
        (container_split_and_send tid p mtu)).2.active = false := by
  have hcap' : p.length ≤ 4096 := hcap
  have hfc1 : 1 ≤ split_first_cap mtu := by
    simp only [split_first_cap, CONTAINER_ATT_OVERHEAD, CONTAINER_FIRST_HEADER_SIZE]
    omega
  have hsc : split_sub_cap mtu ≠ 0 := by
    simp only [split_sub_cap, CONTAINER_ATT_OVERHEAD, CONTAINER_SUBSEQUENT_HEADER_SIZE]
    omega
  have htot : p.length % 65536 = p.length := Nat.mod_eq_of_lt (by omega)
  unfold container_split_and_send
  rw [htot]
  by_cases hone : p.length ≤ split_first_cap mtu
  · -- single FIRST frame
    have htake : p.take (split_first_cap mtu) = p := List.take_of_length_le hone
    have hdrop : p.drop (split_first_cap mtu) = [] := List.drop_eq_nil_of_le hone
    rw [htake, hdrop, split_tail_nil]
    simp only [feed_trace, container_assembler_feed, container_assembler_init]
    have hnover : ¬ (CONFIG_BLERPC_PROTOCOL_ASSEMBLER_BUF_SIZE < p.length) := by
      simp only [CONFIG_BLERPC_PROTOCOL_ASSEMBLER_BUF_SIZE]
      omega
    simp [hnover]
  · -- FIRST frame plus a nonempty splitter tail
    have htklen : (p.take (split_first_cap mtu)).length = split_first_cap mtu := by
      simp only [List.length_take]
      omega
    have hnover : ¬ (CONFIG_BLERPC_PROTOCOL_ASSEMBLER_BUF_SIZE < p.length) := by
      simp only [CONFIG_BLERPC_PROTOCOL_ASSEMBLER_BUF_SIZE]
      omega
    have hstep : container_assembler_feed container_assembler_init
        { transaction_id := tid % 256, sequence_number := 0, ctype := container_type.first,
          control_cmd := 0, total_length := p.length,
          payload := p.take (split_first_cap mtu) } =
        (0, assembling_state (tid % 256) 1 p.length (p.take (split_first_cap mtu))) := by
      simp only [container_assembler_feed, container_assembler_init, assembling_state]
      rw [if_neg (by simp), if_neg hnover, if_neg (by omega), if_neg (by omega)]
    have hrec := split_tail_feed_trace tid (split_sub_cap mtu) p.length hsc
      (p.drop (split_first_cap mtu)).length (p.drop (split_first_cap mtu))
      (p.take (split_first_cap mtu)) 0 rfl
      (List.ne_nil_of_length_pos (by simp only [List.length_drop]; omega))
      (by simp only [List.length_append, List.length_drop, htklen]; omega)
    have h1m : (1 : Nat) % 256 = 1 := by norm_num
    simp only [Nat.zero_add, h1m] at hrec
    obtain ⟨hlast, hzeros, hbuf, hact⟩ := hrec
    simp only [feed_trace, hstep]
    have hrsne : (feed_trace (assembling_state (tid % 256) 1 p.length
        (p.take (split_first_cap mtu)))
        (split_tail tid (split_sub_cap mtu) 1 (p.drop (split_first_cap mtu)))).1 ≠ [] :=
      ne_nil_of_getLast?_eq_some hlast
    refine ⟨?_, ?_, ?_, ?_⟩
    · rw [dropLast_cons_of_ne_nil 0 hrsne]
      intro r hr
      rcases List.mem_cons.mp hr with h0 | hmem
      · exact h0
      · exact hzeros r hmem
    · rw [getLast?_cons_of_ne_nil 0 hrsne]
      exact hlast
    · rw [hbuf, List.take_append_drop]
    · exact hact

/-- C2 witness: 40 bytes at the minimum MTU 23 (three frames: 14 + 16 + 10
payload bytes) reassemble to the original bytes with Complete on the last
frame. -/
theorem C2_split_and_assemble_roundtrip_witness :
    (feed_trace container_assembler_init
        (container_split_and_send 7 (List.range 40) 23)).1.getLast? = some 1 ∧
    (feed_trace container_assembler_init
        (container_split_and_send 7 (List.range 40) 23)).2.buf = List.range 40 :=
  ⟨(C2_split_and_assemble_roundtrip (List.range 40) 23 7
      (by decide) (by decide) (by decide)).2.1,
   (C2_split_and_assemble_roundtrip (List.range 40) 23 7
      (by decide) (by decide) (by decide)).2.2.1⟩

/-- Flushing keeps the MTU and leaves the current container empty. -/
theorem streaming_flush_container_res (c : streaming_ctx) :
    (streaming_flush_container c).1.mtu = c.mtu ∧
    (streaming_flush_container c).1.cur = [] ∧
    (streaming_flush_container c).1.transaction_id = c.transaction_id ∧
    (streaming_flush_container c).1.total_length = c.total_length := by
  unfold streaming_flush_container
  by_cases h : c.cur = []
  · simp [h]
  · simp [h]

/-- Flushing a nonempty container before the first frame was sent emits one
FIRST frame. -/
theorem streaming_flush_first (c : streaming_ctx) (h : c.cur ≠ [])
    (hf : c.first_sent = false) :
    streaming_flush_container c =
      ({ c with seq := (c.seq + 1) % 256, first_sent := true, cur := [] },
        [{ transaction_id := c.transaction_id % 256, sequence_number := c.seq % 256,
           ctype := container_type.first, control_cmd := 0,
           total_length := c.total_length % 65536, payload := c.cur }]) := by
  unfold streaming_flush_container
  rw [if_neg h, hf]
  simp

/-- Flushing a nonempty container after the first frame was sent emits one
SUBSEQUENT frame. -/
theorem streaming_flush_sub (c : streaming_ctx) (h : c.cur ≠ [])
    (hf : c.first_sent = true) :
    streaming_flush_container c =
      ({ c with seq := (c.seq + 1) % 256, first_sent := true, cur := [] },
        [{ transaction_id := c.transaction_id % 256, sequence_number := c.seq % 256,
           ctype := container_type.subsequent, control_cmd := 0, total_length := 0,
           payload := c.cur }]) := by
  unfold streaming_flush_container
  rw [if_neg h, hf]
  simp

/-- Folding the byte writer from an arbitrary frame accumulator. -/
theorem swb_step_acc (data : List Nat) :
    ∀ (c : streaming_ctx) (fs : List container_header),
      data.foldl swb_step (c, fs) =
        ((streaming_write_bytes c data).1, fs ++ (streaming_write_bytes c data).2) := by
  induction data with
  | nil => intro c fs; simp [streaming_write_bytes]
  | cons x rest ih =>
    intro c fs
    have hstep : swb_step (c, fs) x =
        ((streaming_write_byte c x).1, fs ++ (streaming_write_byte c x).2) := rfl
    have hstep0 : swb_step (c, []) x =
        ((streaming_write_byte c x).1, (streaming_write_byte c x).2) := by
      simp [swb_step]
    simp only [streaming_write_bytes, List.foldl_cons, hstep, hstep0]
    rw [ih (streaming_write_byte c x).1 (fs ++ (streaming_write_byte c x).2),
      ih (streaming_write_byte c x).1 (streaming_write_byte c x).2]
    simp [List.append_assoc]

/-- The byte writer splits over list append. -/
theorem streaming_write_bytes_append (c : streaming_ctx) (a b : List Nat) :
    streaming_write_bytes c (a ++ b) =
      ((streaming_write_bytes (streaming_write_bytes c a).1 b).1,
        (streaming_write_bytes c a).2 ++
          (streaming_write_bytes (streaming_write_bytes c a).1 b).2) := by
  show (a ++ b).foldl swb_step (c, []) = _
  rw [List.foldl_append]
  have he : a.foldl swb_step (c, []) =
      ((streaming_write_bytes c a).1, (streaming_write_bytes c a).2) := by
    rw [show ((streaming_write_bytes c a).1, (streaming_write_bytes c a).2) =
      streaming_write_bytes c a from rfl]
    rfl
  rw [he, swb_step_acc b]

/-- The per container capacity does not depend on the buffered bytes. -/
theorem streaming_max_payload_cur (c : streaming_ctx) (l : List Nat) :
    streaming_max_payload { c with cur := l } = streaming_max_payload c := rfl

/-- Writing bytes that leave the current container strictly below its
capacity only appends them, emitting no frame. -/
theorem swb_fill (data : List Nat) :
    ∀ c : streaming_ctx, c.cur.length + data.length < streaming_max_payload c →
      streaming_write_bytes c data = ({ c with cur := c.cur ++ data }, []) := by
  induction data with
  | nil => intro c _; simp [streaming_write_bytes]
  | cons x rest ih =>
    intro c h
    simp only [List.length_cons] at h
    have hb : streaming_write_byte c x = ({ c with cur := c.cur ++ [x] }, []) := by
      unfold streaming_write_byte
      rw [if_neg (by simp only [List.length_append, List.length_cons, List.length_nil]; omega)]
    have hcons : streaming_write_bytes c (x :: rest) =
        streaming_write_bytes ({ c with cur := c.cur ++ [x] } : streaming_ctx) rest := by
      simp only [streaming_write_bytes, List.foldl_cons]
      rw [show swb_step (c, []) x =
        (({ c with cur := c.cur ++ [x] } : streaming_ctx), ([] : List container_header)) by
          simp [swb_step, hb]]
    have h2 : ({ c with cur := c.cur ++ [x] } : streaming_ctx).cur.length + rest.length <
        streaming_max_payload ({ c with cur := c.cur ++ [x] } : streaming_ctx) := by
      rw [streaming_max_payload_cur]
      simp only [List.length_append, List.length_cons, List.length_nil]
      omega
    rw [hcons, ih _ h2]
    simp

/-- Writing exactly the bytes that fill the current container to capacity is
one flush of the filled container. -/
theorem swb_flush (data : List Nat) :
    ∀ c : streaming_ctx, data ≠ [] →
      c.cur.length + data.length = streaming_max_payload c →
      streaming_write_bytes c data =
        streaming_flush_container { c with cur := c.cur ++ data } := by
  induction data with
  | nil => intro c h _; cases h rfl
  | cons x rest ih =>
    intro c _ h
    cases rest with
    | nil =>
      simp only [List.length_cons, List.length_nil] at h
      have hb : streaming_write_byte c x =
          streaming_flush_container { c with cur := c.cur ++ [x] } := by
        unfold streaming_write_byte
        rw [if_pos (by simp only [List.length_append, List.length_cons, List.length_nil]; omega)]
      have hflush := streaming_flush_container
        ({ c with cur := c.cur ++ [x] } : streaming_ctx)
      simp only [streaming_write_bytes, List.foldl_cons, List.foldl_nil]
      rw [show swb_step (c, []) x =
        ((streaming_write_byte c x).1, (streaming_write_byte c x).2) by simp [swb_step]]
      rw [hb]
    | cons y rest' =>
      simp only [List.length_cons] at h
      have hb : streaming_write_byte c x = ({ c with cur := c.cur ++ [x] }, []) := by
        unfold streaming_write_byte
        rw [if_neg (by simp only [List.length_append, List.length_cons, List.length_nil]; omega)]
      have hcons : streaming_write_bytes c (x :: y :: rest') =
          streaming_write_bytes ({ c with cur := c.cur ++ [x] } : streaming_ctx) (y :: rest') := by
        simp only [streaming_write_bytes, List.foldl_cons]
        rw [show swb_step (c, []) x =
          (({ c with cur := c.cur ++ [x] } : streaming_ctx), ([] : List container_header)) by
            simp [swb_step, hb]]
      have h2 : ({ c with cur := c.cur ++ [x] } : streaming_ctx).cur.length +
          (y :: rest').length = streaming_max_payload ({ c with cur := c.cur ++ [x] } :
            streaming_ctx) := by
        rw [streaming_max_payload_cur]
        simp only [List.length_append, List.length_cons, List.length_nil]
        omega
      rw [hcons, ih _ (by simp) h2]
      congr 1
      simp

/-- Only the state component of one byte writer step. -/
theorem swb_fst_cons (c : streaming_ctx) (x : Nat) (rest : List Nat) :
    (streaming_write_bytes c (x :: rest)).1 =
      (streaming_write_bytes (streaming_write_byte c x).1 rest).1 := by
  simp only [streaming_write_bytes, List.foldl_cons]
  rw [show swb_step (c, []) x =
    ((streaming_write_byte c x).1, (streaming_write_byte c x).2) by simp [swb_step]]
  rw [swb_step_acc]
  rfl

/-- When both per container capacities are nonzero, the capacity of any
state is nonzero. -/
theorem streaming_max_payload_pos (c : streaming_ctx)
    (h1 : 1 ≤ (c.mtu - 3 - 6) % 256) (h2 : 1 ≤ (c.mtu - 3 - 4) % 256) :
    1 ≤ streaming_max_payload c := by
  unfold streaming_max_payload streaming_header_size CONTAINER_ATT_OVERHEAD
    CONTAINER_FIRST_HEADER_SIZE CONTAINER_SUBSEQUENT_HEADER_SIZE
  split <;> simpa

/-- Capacity before the first flush. -/
theorem streaming_max_payload_first (c : streaming_ctx) (hf : c.first_sent = false) :
    streaming_max_payload c = (c.mtu - 3 - 6) % 256 := by
  unfold streaming_max_payload streaming_header_size CONTAINER_ATT_OVERHEAD
    CONTAINER_FIRST_HEADER_SIZE CONTAINER_SUBSEQUENT_HEADER_SIZE
  rw [hf]
  simp

/-- Capacity after the first flush. -/
theorem streaming_max_payload_sub (c : streaming_ctx) (hf : c.first_sent = true) :
    streaming_max_payload c = (c.mtu - 3 - 4) % 256 := by
  unfold streaming_max_payload streaming_header_size CONTAINER_ATT_OVERHEAD
    CONTAINER_FIRST_HEADER_SIZE CONTAINER_SUBSEQUENT_HEADER_SIZE
  rw [hf]
  simp

/-- The byte writer keeps the MTU and, when both per container capacities
are nonzero, keeps the buffered bytes strictly below the capacity. -/
theorem swb_inv (data : List Nat) :
    ∀ c : streaming_ctx,
      1 ≤ (c.mtu - 3 - 6) % 256 → 1 ≤ (c.mtu - 3 - 4) % 256 →
      c.cur.length < streaming_max_payload c →
      (streaming_write_bytes c data).1.mtu = c.mtu ∧
      (streaming_write_bytes c data).1.cur.length <
        streaming_max_payload (streaming_write_bytes c data).1 := by
  induction data with
  | nil => intro c _ _ hcur; exact ⟨rfl, hcur⟩
  | cons x rest ih =>
    intro c h1 h2 hcur
    rw [swb_fst_cons]
    by_cases hfull : streaming_max_payload c ≤ c.cur.length + 1
    · have hb : streaming_write_byte c x =
          streaming_flush_container { c with cur := c.cur ++ [x] } := by
        unfold streaming_write_byte
        rw [if_pos (by simp only [List.length_append, List.length_cons, List.length_nil]; omega)]
      have hres := streaming_flush_container_res ({ c with cur := c.cur ++ [x] } : streaming_ctx)
      have hmtu : (streaming_write_byte c x).1.mtu = c.mtu := by
        rw [hb]
        exact hres.1
      have hcur2 : (streaming_write_byte c x).1.cur.length <
          streaming_max_payload (streaming_write_byte c x).1 := by
        rw [hb, hres.2.1]
        refine lt_of_lt_of_le Nat.zero_lt_one ?_
        exact streaming_max_payload_pos _ (by rw [hres.1]; exact h1) (by rw [hres.1]; exact h2)
      have := ih (streaming_write_byte c x).1 (by rw [hmtu]; exact h1)
        (by rw [hmtu]; exact h2) hcur2
      exact ⟨by rw [this.1, hmtu], this.2⟩
    · have hb : streaming_write_byte c x = ({ c with cur := c.cur ++ [x] }, []) := by
        unfold streaming_write_byte
        rw [if_neg (by simp only [List.length_append, List.length_cons, List.length_nil]; omega)]
      have hmtu : (streaming_write_byte c x).1.mtu = c.mtu := by rw [hb]
      have hcur2 : (streaming_write_byte c x).1.cur.length <
          streaming_max_payload (streaming_write_byte c x).1 := by
        rw [hb]
        rw [show streaming_max_payload ({ c with cur := c.cur ++ [x] } : streaming_ctx) =
          streaming_max_payload c from streaming_max_payload_cur c (c.cur ++ [x])]
        simp only [List.length_append, List.length_cons, List.length_nil]
        omega
      have := ih (streaming_write_byte c x).1 (by rw [hmtu]; exact h1)
        (by rw [hmtu]; exact h2) hcur2
      exact ⟨by rw [this.1, hmtu], this.2⟩

/-- The chunked write loop of streaming_write equals the one byte at a time
writer whenever both per container capacities are nonzero (which holds for
every MTU between 23 and 262) and the fuel covers the data. -/
theorem streaming_write_fuel_eq :
    ∀ (fuel : Nat) (data : List Nat) (c : streaming_ctx), data.length ≤ fuel →
      1 ≤ (c.mtu - 3 - 6) % 256 → 1 ≤ (c.mtu - 3 - 4) % 256 →
      c.cur.length < streaming_max_payload c →
      streaming_write_fuel fuel c data = some (streaming_write_bytes c data) := by
  intro fuel
  induction fuel with
  | zero =>
    intro data c hlen _ _ _
    have hdnil : data = [] := List.eq_nil_of_length_eq_zero (by omega)
    subst hdnil
    simp [streaming_write_fuel, streaming_write_bytes]
  | succ f ih =>
    intro data c hlen h1 h2 hcur
    cases data with
    | nil => simp [streaming_write_fuel, streaming_write_bytes]
    | cons x rest =>
      simp only [streaming_write_fuel]
      have hn : ¬ (min (x :: rest).length
          (streaming_max_payload c - c.cur.length) = 0) := by
        simp only [List.length_cons]
        omega
      rw [if_neg hn]
      by_cases hsp : streaming_max_payload c - c.cur.length ≤ (x :: rest).length
      · -- the chunk fills the container exactly: flush, then recurse
        have hne : min (x :: rest).length (streaming_max_payload c - c.cur.length) =
            streaming_max_payload c - c.cur.length := Nat.min_eq_right hsp
        rw [hne]
        have htklen : ((x :: rest).take (streaming_max_payload c - c.cur.length)).length =
            streaming_max_payload c - c.cur.length := by
          simp only [List.length_take, List.length_cons] at *
          omega
        have hfullen : streaming_max_payload c ≤
            (c.cur ++ (x :: rest).take (streaming_max_payload c - c.cur.length)).length := by
          simp only [List.length_append, htklen]
          omega
        rw [if_pos hfullen]
        have htkne : (x :: rest).take (streaming_max_payload c - c.cur.length) ≠ [] := by
          apply List.ne_nil_of_length_pos
          rw [htklen]
          omega
        have hflusheq := swb_flush
          ((x :: rest).take (streaming_max_payload c - c.cur.length)) c htkne
          (by rw [htklen]; omega)
        rw [← hflusheq]
        have hinv := swb_inv ((x :: rest).take (streaming_max_payload c - c.cur.length))
          c h1 h2 hcur
        have hrec := ih ((x :: rest).drop (streaming_max_payload c - c.cur.length))
          (streaming_write_bytes c
            ((x :: rest).take (streaming_max_payload c - c.cur.length))).1
          (by simp only [List.length_drop, List.length_cons] at *
              omega)
          (by rw [hinv.1]; exact h1)
          (by rw [hinv.1]; exact h2)
          hinv.2
        rw [hrec]
        have hsw : streaming_write_bytes c (x :: rest) =
            ((streaming_write_bytes (streaming_write_bytes c
                ((x :: rest).take (streaming_max_payload c - c.cur.length))).1
                ((x :: rest).drop (streaming_max_payload c - c.cur.length))).1,
              (streaming_write_bytes c
                ((x :: rest).take (streaming_max_payload c - c.cur.length))).2 ++
              (streaming_write_bytes (streaming_write_bytes c
                ((x :: rest).take (streaming_max_payload c - c.cur.length))).1
                ((x :: rest).drop (streaming_max_payload c - c.cur.length))).2) := by
          conv_lhs => rw [← List.take_append_drop
            (streaming_max_payload c - c.cur.length) (x :: rest)]
          rw [streaming_write_bytes_append]
        rw [hsw]
      · -- the chunk is the rest of the data: append without flushing
        have hne : min (x :: rest).length (streaming_max_payload c - c.cur.length) =
            (x :: rest).length := Nat.min_eq_left (by omega)
        rw [hne, List.take_length, List.drop_length]
        have hnofull : ¬ (streaming_max_payload c ≤ (c.cur ++ x :: rest).length) := by
          simp only [List.length_append, List.length_cons] at *
          omega
        rw [if_neg hnofull]
        have hterm : streaming_write_fuel f
            ({ c with cur := c.cur ++ x :: rest } : streaming_ctx) [] =
            some (({ c with cur := c.cur ++ x :: rest } : streaming_ctx), []) := by
          cases f <;> rfl
        rw [hterm]
        rw [swb_fill (x :: rest) c (by simp only [List.length_cons] at *; omega)]
        simp

/-- A zero capacity splitter tail is empty. -/
theorem split_tail_zero_cap (tid seq : Nat) (l : List Nat) :
    split_tail tid 0 seq l = [] := by
  cases l <;> simp [split_tail, split_tail_fuel]

/-- The splitter tail depends on the starting sequence number only through
its u8 value. -/
theorem split_tail_seq_mod (tid cap : Nat) :
    ∀ (n : Nat) (l : List Nat) (s1 s2 : Nat), l.length = n → s1 % 256 = s2 % 256 →
      split_tail tid cap s1 l = split_tail tid cap s2 l := by
  intro n
  induction n using Nat.strong_induction_on with
  | _ n ih =>
    intro l s1 s2 hn hs
    cases l with
    | nil => simp [split_tail_nil]
    | cons x rest =>
      by_cases hcap : cap = 0
      · subst hcap
        simp [split_tail_zero_cap]
      · simp only [List.length_cons] at hn
        rw [split_tail_cons tid cap s1 x rest hcap, split_tail_cons tid cap s2 x rest hcap, hs]
        congr 1
        exact ih ((x :: rest).drop cap).length
          (by simp only [List.length_drop, List.length_cons]; omega)
          ((x :: rest).drop cap) (s1 + 1) (s2 + 1) rfl (by omega)

/-- After the FIRST frame was flushed, writing the remaining bytes and
performing the final flush emits exactly the splitter tail frames for those
bytes, chunked by the SUBSEQUENT capacity. -/
theorem streaming_sub_phase (tid mtu totalv : Nat)
    (h2 : 1 ≤ (mtu - 3 - 4) % 256) :
    ∀ (n : Nat) (rest : List Nat) (s : Nat), rest.length = n →
      (streaming_write_bytes
          ({ transaction_id := tid, mtu := mtu, total_length := totalv, seq := s,
             cur := [], first_sent := true } : streaming_ctx) rest).2 ++
        (streaming_flush_container (streaming_write_bytes
          ({ transaction_id := tid, mtu := mtu, total_length := totalv, seq := s,
             cur := [], first_sent := true } : streaming_ctx) rest).1).2 =
      split_tail tid ((mtu - 3 - 4) % 256) s rest := by
  have hmaxp : ∀ s : Nat, streaming_max_payload
      ({ transaction_id := tid, mtu := mtu, total_length := totalv, seq := s,
         cur := [], first_sent := true } : streaming_ctx) = (mtu - 3 - 4) % 256 := by
    intro s
    exact streaming_max_payload_sub _ rfl
  intro n
  induction n using Nat.strong_induction_on with
  | _ n ih =>
    intro rest s hn
    cases rest with
    | nil =>
      simp only [streaming_write_bytes, List.foldl_nil]
      simp [streaming_flush_container, split_tail_nil]
    | cons x rest' =>
      simp only [List.length_cons] at hn
      have hcapne : (mtu - 3 - 4) % 256 ≠ 0 := by omega
      by_cases hfill : rest'.length + 1 < (mtu - 3 - 4) % 256
      · -- everything fits into one partial container, emitted by the flush
        have hfl := swb_fill (x :: rest')
          ({ transaction_id := tid, mtu := mtu, total_length := totalv, seq := s,
             cur := [], first_sent := true } : streaming_ctx)
          (by rw [hmaxp]
              simp only [List.length_nil, List.length_cons]
              omega)
        rw [hfl]
        have htake : (x :: rest').take ((mtu - 3 - 4) % 256) = x :: rest' :=
          List.take_of_length_le (by simp only [List.length_cons]; omega)
        have hdrop : (x :: rest').drop ((mtu - 3 - 4) % 256) = [] :=
          List.drop_eq_nil_of_le (by simp only [List.length_cons]; omega)
        rw [split_tail_cons tid _ s x rest' hcapne, htake, hdrop, split_tail_nil]
        rw [streaming_flush_sub _ (by simp) rfl]
        simp
      · -- one full container is flushed, then the tail continues
        have htklen : ((x :: rest').take ((mtu - 3 - 4) % 256)).length =
            (mtu - 3 - 4) % 256 := by
          simp only [List.length_take, List.length_cons]
          omega
        have htkne : (x :: rest').take ((mtu - 3 - 4) % 256) ≠ [] := by
          apply List.ne_nil_of_length_pos
          rw [htklen]
          omega
        have hsw : streaming_write_bytes
            ({ transaction_id := tid, mtu := mtu, total_length := totalv, seq := s,
               cur := [], first_sent := true } : streaming_ctx) (x :: rest') =
            ((streaming_write_bytes (streaming_write_bytes
                ({ transaction_id := tid, mtu := mtu, total_length := totalv, seq := s,
                   cur := [], first_sent := true } : streaming_ctx)
                ((x :: rest').take ((mtu - 3 - 4) % 256))).1
                ((x :: rest').drop ((mtu - 3 - 4) % 256))).1,
              (streaming_write_bytes
                ({ transaction_id := tid, mtu := mtu, total_length := totalv, seq := s,
                   cur := [], first_sent := true } : streaming_ctx)
                ((x :: rest').take ((mtu - 3 - 4) % 256))).2 ++
              (streaming_write_bytes (streaming_write_bytes
                ({ transaction_id := tid, mtu := mtu, total_length := totalv, seq := s,
                   cur := [], first_sent := true } : streaming_ctx)
                ((x :: rest').take ((mtu - 3 - 4) % 256))).1
                ((x :: rest').drop ((mtu - 3 - 4) % 256))).2) := by
          conv_lhs => rw [← List.take_append_drop ((mtu - 3 - 4) % 256) (x :: rest')]
          rw [streaming_write_bytes_append]
        have hflush := swb_flush ((x :: rest').take ((mtu - 3 - 4) % 256))
          ({ transaction_id := tid, mtu := mtu, total_length := totalv, seq := s,
             cur := [], first_sent := true } : streaming_ctx) htkne
          (by rw [hmaxp]
              simp only [List.length_nil, htklen]
              omega)
        have hflsub := streaming_flush_sub
          ({ transaction_id := tid, mtu := mtu, total_length := totalv, seq := s,
             cur := [] ++ (x :: rest').take ((mtu - 3 - 4) % 256), first_sent := true } :
            streaming_ctx) (by simpa using htkne) rfl
        rw [hsw, hflush, hflsub]
        have hrec := ih ((x :: rest').drop ((mtu - 3 - 4) % 256)).length
          (by simp only [List.length_drop, List.length_cons]; omega)
          ((x :: rest').drop ((mtu - 3 - 4) % 256)) ((s + 1) % 256) rfl
        simp only [List.nil_append] at hrec ⊢
        rw [List.append_assoc, hrec,
          split_tail_seq_mod tid ((mtu - 3 - 4) % 256)
            ((x :: rest').drop ((mtu - 3 - 4) % 256)).length
            ((x :: rest').drop ((mtu - 3 - 4) % 256)) ((s + 1) % 256) (s + 1) rfl (by omega),
          split_tail_cons tid _ s x rest' hcapne]
        rfl

/-- streaming_flush_first on an explicit fresh style literal, with the
resulting state written as a plain literal. -/
theorem streaming_flush_first_init (tid mtu tot s : Nat) (l : List Nat) (hl : l ≠ []) :
    streaming_flush_container
      ({ transaction_id := tid, mtu := mtu, total_length := tot, seq := s, cur := l,
         first_sent := false } : streaming_ctx) =
      (({ transaction_id := tid, mtu := mtu, total_length := tot, seq := (s + 1) % 256,
          cur := [], first_sent := true } : streaming_ctx),
        [{ transaction_id := tid % 256, sequence_number := s % 256,
           ctype := container_type.first, control_cmd := 0, total_length := tot % 65536,
           payload := l }]) := by
  rw [streaming_flush_first _ hl rfl]

/-- Sub phase lemma stated for any context that is between containers. -/
theorem streaming_sub_phase_any (c : streaming_ctx) (rest : List Nat)
    (h2 : 1 ≤ (c.mtu - 3 - 4) % 256) (hcur : c.cur = []) (hfs : c.first_sent = true) :
    (streaming_write_bytes c rest).2 ++
      (streaming_flush_container (streaming_write_bytes c rest).1).2 =
    split_tail c.transaction_id ((c.mtu - 3 - 4) % 256) c.seq rest := by
  obtain ⟨a, b, t, s, cur, fs⟩ := c
  simp only at hcur hfs h2
  subst hcur
  subst hfs
  exact streaming_sub_phase a b t h2 rest.length rest s rfl

/-- Writing a whole nonempty payload through the streaming sender from a
fresh context and flushing the trailing partial container emits exactly the
frames of the one shot splitter, for every MTU between 23 and 262. -/
theorem streaming_full_write (tid mtu : Nat) (p : List Nat) (hp : p ≠ [])
    (hm1 : 23 ≤ mtu) (hm2 : mtu ≤ 262) :
    (streaming_write_bytes (streaming_ctx_init tid mtu p.length) p).2 ++
      (streaming_flush_container
        (streaming_write_bytes (streaming_ctx_init tid mtu p.length) p).1).2 =
    container_split_and_send tid p mtu := by
  have hfc : split_first_cap mtu = (mtu - 3 - 6) % 256 := by
    simp only [split_first_cap, CONTAINER_ATT_OVERHEAD, CONTAINER_FIRST_HEADER_SIZE]
    omega
  have hsc : split_sub_cap mtu = (mtu - 3 - 4) % 256 := by
    simp only [split_sub_cap, CONTAINER_ATT_OVERHEAD, CONTAINER_SUBSEQUENT_HEADER_SIZE]
    omega
  have h1 : 1 ≤ (mtu - 3 - 6) % 256 := by omega
  have h2 : 1 ≤ (mtu - 3 - 4) % 256 := by omega
  have hmod : p.length % 65536 % 65536 = p.length % 65536 := by omega
  rw [show streaming_ctx_init tid mtu p.length =
    ({ transaction_id := tid, mtu := mtu, total_length := p.length % 65536, seq := 0,
       cur := [], first_sent := false } : streaming_ctx) from rfl]
  have hmax0 : streaming_max_payload
      ({ transaction_id := tid, mtu := mtu, total_length := p.length % 65536, seq := 0,
         cur := [], first_sent := false } : streaming_ctx) = (mtu - 3 - 6) % 256 :=
    streaming_max_payload_first _ rfl
  unfold container_split_and_send
  rw [hfc, hsc]
  by_cases hone : p.length < (mtu - 3 - 6) % 256
  · -- the payload fits into the FIRST container
    rw [swb_fill p _ (by rw [hmax0]; simpa using hone)]
    rw [streaming_flush_first _ (by simpa using hp) rfl]
    rw [List.take_of_length_le (le_of_lt hone), List.drop_eq_nil_of_le (le_of_lt hone),
      split_tail_nil]
    simp [hmod]
  · -- FIRST container filled exactly, then the sub phase
    have hplen : (mtu - 3 - 6) % 256 ≤ p.length := by omega
    have htklen : (p.take ((mtu - 3 - 6) % 256)).length = (mtu - 3 - 6) % 256 := by
      simp only [List.length_take]
      omega
    have htkne : p.take ((mtu - 3 - 6) % 256) ≠ [] := by
      apply List.ne_nil_of_length_pos
      rw [htklen]
      omega
    have hsw : streaming_write_bytes
        ({ transaction_id := tid, mtu := mtu, total_length := p.length % 65536, seq := 0,
           cur := [], first_sent := false } : streaming_ctx) p =
        ((streaming_write_bytes (streaming_write_bytes
            ({ transaction_id := tid, mtu := mtu, total_length := p.length % 65536, seq := 0,
               cur := [], first_sent := false } : streaming_ctx)
            (p.take ((mtu - 3 - 6) % 256))).1
            (p.drop ((mtu - 3 - 6) % 256))).1,
          (streaming_write_bytes
            ({ transaction_id := tid, mtu := mtu, total_length := p.length % 65536, seq := 0,
               cur := [], first_sent := false } : streaming_ctx)
            (p.take ((mtu - 3 - 6) % 256))).2 ++
          (streaming_write_bytes (streaming_write_bytes
            ({ transaction_id := tid, mtu := mtu, total_length := p.length % 65536, seq := 0,
               cur := [], first_sent := false } : streaming_ctx)
            (p.take ((mtu - 3 - 6) % 256))).1
            (p.drop ((mtu - 3 - 6) % 256))).2) := by
      conv_lhs =>
        arg 2
        rw [← List.take_append_drop ((mtu - 3 - 6) % 256) p]
      rw [streaming_write_bytes_append]
    have hflush := swb_flush (p.take ((mtu - 3 - 6) % 256))
      ({ transaction_id := tid, mtu := mtu, total_length := p.length % 65536, seq := 0,
         cur := [], first_sent := false } : streaming_ctx) htkne
      (by rw [hmax0]
          simp only [List.length_nil, htklen]
          omega)
    have hflfirst := streaming_flush_first_init tid mtu (p.length % 65536) 0
      ([] ++ p.take ((mtu - 3 - 6) % 256)) (by simpa using htkne)
    rw [hsw, hflush, hflfirst, List.append_assoc]
    rw [streaming_sub_phase tid mtu (p.length % 65536) h2
      (p.drop ((mtu - 3 - 6) % 256)).length (p.drop ((mtu - 3 - 6) % 256)) ((0 + 1) % 256) rfl]
    rw [split_tail_seq_mod tid ((mtu - 3 - 4) % 256) (p.drop ((mtu - 3 - 6) % 256)).length
      (p.drop ((mtu - 3 - 6) % 256)) ((0 + 1) % 256) 1 rfl (by omega)]
    simp [hmod]

/-- Folding incremental writes (pieces) through streaming_write succeeds and
equals the byte writer on the concatenation, for nonzero capacities. -/
theorem streaming_pieces_fold :
    ∀ (pieces : List (List Nat)) (c : streaming_ctx) (fs : List container_header),
      1 ≤ (c.mtu - 3 - 6) % 256 → 1 ≤ (c.mtu - 3 - 4) % 256 →
      c.cur.length < streaming_max_payload c →
      pieces.foldl streaming_pieces_step (some (c, fs)) =
        some ((streaming_write_bytes c pieces.flatten).1,
          fs ++ (streaming_write_bytes c pieces.flatten).2) := by
  intro pieces
  induction pieces with
  | nil =>
    intro c fs _ _ _
    simp [streaming_write_bytes]
  | cons piece ps ih =>
    intro c fs h1 h2 hcur
    simp only [List.foldl_cons]
    have hstep : streaming_pieces_step (some (c, fs)) piece =
        some ((streaming_write_bytes c piece).1, fs ++ (streaming_write_bytes c piece).2) := by
      simp only [streaming_pieces_step, streaming_write]
      rw [streaming_write_fuel_eq piece.length piece c (le_refl _) h1 h2 hcur]
    rw [hstep]
    have hinv := swb_inv piece c h1 h2 hcur
    rw [ih (streaming_write_bytes c piece).1 (fs ++ (streaming_write_bytes c piece).2)
      (by rw [hinv.1]; exact h1) (by rw [hinv.1]; exact h2) hinv.2]
    have hjoin : (piece :: ps).flatten = piece ++ ps.flatten := by simp
    rw [hjoin, streaming_write_bytes_append]
    simp [List.append_assoc]

/-- C4 counterexample: the claim quantifies over every MTU, but at MTU 270
the uint8_t cast in streaming_max_payload truncates the FIRST container
capacity to (270 - 9) mod 256 = 5 bytes, while the one shot splitter caps a
frame payload at 255 bytes; a ten byte payload then streams as two frames
but splits as one. -/
theorem C4_counterexample :
    streaming_send_pieces 0 270 10 [List.range 10] ≠
      some (container_split_and_send 0 (List.range 10) 270) := by decide

/-- C4 amended: for every partition of a nonempty byte sequence into
consecutive pieces and every MTU with 23 <= mtu <= 262 (so that the uint8_t
capacity arithmetic of the streaming sender does not truncate), writing the
pieces in order through streaming_write and finishing with
streaming_flush_container emits exactly the frame sequence of the one shot
container_split_and_send on the concatenated bytes: same transaction id,
sequence numbers, types, total_length and payload bytes per frame. -/
theorem C4_streaming_matches_one_shot_splitter (pieces : List (List Nat)) (mtu tid : Nat)
    (hm1 : 23 ≤ mtu) (hm2 : mtu ≤ 262) (hne : pieces.flatten ≠ []) :
    streaming_send_pieces tid mtu pieces.flatten.length pieces =
      some (container_split_and_send tid pieces.flatten mtu) := by
  have h1 : 1 ≤ (mtu - 3 - 6) % 256 := by omega
  have h2 : 1 ≤ (mtu - 3 - 4) % 256 := by omega
  have hcur : (streaming_ctx_init tid mtu pieces.flatten.length).cur.length <
      streaming_max_payload (streaming_ctx_init tid mtu pieces.flatten.length) := by
    rw [streaming_max_payload_first _ rfl]
    simp [streaming_ctx_init]
    omega
  unfold streaming_send_pieces
  rw [streaming_pieces_fold pieces (streaming_ctx_init tid mtu pieces.flatten.length) []
    h1 h2 hcur]
  simp only [List.nil_append]
  rw [show (streaming_write_bytes (streaming_ctx_init tid mtu pieces.flatten.length)
    pieces.flatten).2 ++ (streaming_flush_container (streaming_write_bytes
    (streaming_ctx_init tid mtu pieces.flatten.length) pieces.flatten).1).2 =
    container_split_and_send tid pieces.flatten mtu from
    streaming_full_write tid mtu pieces.flatten hne hm1 hm2]

/-- C4 witness: two incremental writes at the minimum MTU match the one shot
splitter. -/
theorem C4_streaming_matches_one_shot_splitter_witness :
    streaming_send_pieces 9 23 ([[1, 2], [3]] : List (List Nat)).flatten.length [[1, 2], [3]] =
      some (container_split_and_send 9 ([[1, 2], [3]] : List (List Nat)).flatten 23) :=
  C4_streaming_matches_one_shot_splitter [[1, 2], [3]] 23 9
    (by decide) (by decide) (by decide)
